import Mathlib

/-!
Verification development for the pdf-signatures package.

The repository ships a TypeScript declaration file
(src/main/js/index.d.ts) that fixes the public surface: the enums
CertificationLevels and HashAlgorithms, the parameter and result
interfaces, the error shape PdfSignaturesError, and the four operations
addSignaturePlaceholderToPdf, pdfDigest, signPdf and addLtvToPdf.  The
implementation behind those declarations is not part of the repository
snapshot, so the byte-level behaviour of the four operations is modelled
here from the specification document, faithful to its words, while every
name and numeric value that does appear in index.d.ts is taken from the
source.

Bytes are modelled as natural numbers (each meaningful byte is < 256);
files are lists of bytes.  Fallible operations return Except.
-/

namespace PdfSignatures

/-- From the source (index.d.ts, enum CertificationLevels): the four
certification levels with their numeric values 0..3. -/
inductive CertificationLevels where
  | NotCertified
  | CertifiedNoChangesAllowed
  | CertifiedFormFilling
  | CertifiedFormFillingAndAnnotations
  deriving DecidableEq, Repr

/-- From the source: the numeric value of each certification level
(NotCertified = 0, CertifiedNoChangesAllowed = 1, CertifiedFormFilling = 2,
CertifiedFormFillingAndAnnotations = 3). -/
def CertificationLevels.toNat : CertificationLevels → Nat
  | .NotCertified => 0
  | .CertifiedNoChangesAllowed => 1
  | .CertifiedFormFilling => 2
  | .CertifiedFormFillingAndAnnotations => 3

/-- From the source (index.d.ts, enum HashAlgorithms): SHA-256, SHA-384,
SHA-512. -/
inductive HashAlgorithms where
  | Sha256
  | Sha384
  | Sha512
  deriving DecidableEq, Repr

/-- Modelled from the spec: the error kinds of section 7 (the source only
declares the error shape as a message/type pair), plus the ambiguous
placeholder failure of section 4.3. -/
inductive PdfSignaturesError where
  | parseError
  | passwordError
  | placeholderNotFound
  | ambiguousPlaceholder
  | signatureTooLarge
  | parameterError
  | noSignatureForLtv
  deriving DecidableEq, Repr

/-- Modelled from the spec (data model): the four ByteRange integers
[start1, length1, start2, length2] bracketing everything except the
Contents hex string. -/
structure ByteRange where
  start1 : Nat
  len1 : Nat
  start2 : Nat
  len2 : Nat
  deriving DecidableEq, Repr

/-- Modelled from the spec (data model): the parsed view of one Signature
dictionary, as the missing parser would produce it — its ByteRange, the
byte offsets of its Contents hex string, the reserved size, and the
optional DocMDP permission. -/
structure SigDict where
  byteRange : ByteRange
  contentsStart : Nat
  contentsEnd : Nat
  estimatedSize : Nat
  docMdp : Option Nat
  deriving DecidableEq, Repr

/-- Modelled from the spec (section 4.5): one Validation-Related
Information entry keyed by a digest of the Contents of a signature. -/
structure VriEntry where
  key : List Nat
  crls : List (List Nat)
  ocsps : List (List Nat)
  deriving DecidableEq, Repr

/-- Modelled from the spec (data model): the Document Security Store —
arrays of CRL and OCSP streams plus the VRI sub-dictionary. -/
structure Dss where
  crls : List (List Nat)
  ocsps : List (List Nat)
  vri : List VriEntry
  deriving DecidableEq, Repr

/-- Modelled from the spec: a parsed PDF document — its raw bytes together
with the parsed view (signature dictionaries, AcroForm SigFlags, DSS)
that the missing Object Model and Parser component would maintain. -/
structure PdfDocument where
  bytes : List Nat
  sigDicts : List SigDict
  acroFormSigFlags : Option Nat
  dss : Dss
  deriving DecidableEq, Repr

/-- A freshly parsed PDF that carries no signature machinery yet. -/
def PdfDocument.ofBytes (bs : List Nat) : PdfDocument :=
  { bytes := bs, sigDicts := [], acroFormSigFlags := none
    dss := { crls := [], ocsps := [], vri := [] } }

/-! ## Byte-level helpers -/

/-- The bytes of a string literal (ASCII code points). -/
def strBytes (s : String) : List Nat :=
  s.toList.map Char.toNat

/-- Read the span of `len` bytes starting at offset `start`. -/
def readSpan (bytes : List Nat) (start len : Nat) : List Nat :=
  (bytes.drop start).take len

/-- Overwrite, in place, the bytes at offsets `[off, off + repl.length)`
with `repl`, keeping everything else. -/
def writeAt (bytes : List Nat) (off : Nat) (repl : List Nat) : List Nat :=
  bytes.take off ++ repl ++ bytes.drop (off + repl.length)

/-- One hexadecimal digit character (0-9, a-f) for a value below 16. -/
def hexDigit (n : Nat) : Nat :=
  if n < 10 then 48 + n else 87 + n

/-- Hex-encode a byte list: every byte becomes two hex digit characters. -/
def hexEncode : List Nat → List Nat
  | [] => []
  | b :: rest => hexDigit (b % 256 / 16) :: hexDigit (b % 16) :: hexEncode rest

/-- The base64 alphabet: value 0..63 to ASCII character code. -/
def base64Char (n : Nat) : Nat :=
  if n < 26 then 65 + n
  else if n < 52 then 97 + (n - 26)
  else if n < 62 then 48 + (n - 52)
  else if n = 62 then 43
  else 47

/-- Standard base64 encoding of a byte list, as ASCII character codes,
with `=` padding (code 61). -/
def base64Encode : List Nat → List Nat
  | [] => []
  | [b1] =>
      [base64Char (b1 % 256 / 4), base64Char (b1 % 4 * 16), 61, 61]
  | [b1, b2] =>
      [base64Char (b1 % 256 / 4), base64Char (b1 % 4 * 16 + b2 % 256 / 16),
       base64Char (b2 % 16 * 4), 61]
  | b1 :: b2 :: b3 :: rest =>
      base64Char (b1 % 256 / 4) :: base64Char (b1 % 4 * 16 + b2 % 256 / 16) ::
      base64Char (b2 % 16 * 4 + b3 % 256 / 64) :: base64Char (b3 % 64) ::
      base64Encode rest

/-- Digest length in bytes of each hash algorithm (SHA-256 → 32,
SHA-384 → 48, SHA-512 → 64). -/
def digestLength : HashAlgorithms → Nat
  | .Sha256 => 32
  | .Sha384 => 48
  | .Sha512 => 64

/-- Modelled from the spec: the external cryptographic hash primitive
(the SHA-2 implementation lives in a crypto library, not in this
repository).  Only its interface matters here: it consumes the streamed
input bytes and produces a digest of exactly `digestLength` bytes.  The
mixing function is an executable stand-in with that shape. -/
def hashBytes (alg : HashAlgorithms) (input : List Nat) : List Nat :=
  (List.range (digestLength alg)).map
    (fun i => (input.foldl (fun a b => (a * 31 + b % 256 + 1) % 256) (i + 1)) % 256)

/-! ## Placeholder serialization

Modelled from the spec, section 4.2: the incremental update appended by
`addSignaturePlaceholderToPdf` serializes the Signature dictionary with a
ByteRange of four fixed-width placeholder integers and a zero-filled
Contents hex string; after serialization the actual offsets are computed
and the ByteRange integers are rewritten in place (same width, so no
offset shifts). -/

/-- A natural number rendered as exactly ten decimal digit characters
(zero padded), the fixed-width ByteRange integer rendering. -/
def padDec10 (n : Nat) : List Nat :=
  (List.range 10).map (fun i => 48 + n / 10 ^ (9 - i) % 10)

/-- The four fixed-width ByteRange integers with separating spaces. -/
def brNums (br : ByteRange) : List Nat :=
  padDec10 br.start1 ++ [32] ++ padDec10 br.len1 ++ [32] ++
  padDec10 br.start2 ++ [32] ++ padDec10 br.len2

/-- Serialized bytes of the incremental update preceding the ByteRange
integers: object header and Signature dictionary opening. -/
def sigDictOpen : List Nat :=
  strBytes "\n9999 0 obj\n<< /Type /Sig /Filter /Adobe.PPKLite /SubFilter /adbe.pkcs7.detached /ByteRange ["

/-- Serialized bytes between the ByteRange integers and the first hex
character of the Contents string. -/
def contentsKey : List Nat :=
  strBytes "] /Contents <"

/-- Serialized bytes after the Contents hex string: dictionary close,
widget and AcroForm objects, cross-reference section and trailer of the
incremental update. -/
def sigDictClose : List Nat :=
  strBytes ">\n>>\nendobj\nxref\ntrailer\nstartxref\n%%EOF\n"

/-- Offset, within the appended update, of the ByteRange integers. -/
def brOffset : Nat := sigDictOpen.length

/-- Width in bytes of the four rendered ByteRange integers. -/
def brNumsWidth : Nat := 43

/-- Offset, within the appended update, of the first Contents hex char. -/
def contentsOffset : Nat := brOffset + brNumsWidth + contentsKey.length

/-- Total length of the appended incremental update for a reservation of
`es` bytes (2 * es hex characters). -/
def updateLength (es : Nat) : Nat :=
  contentsOffset + 2 * es + sigDictClose.length

/-- Serialize the incremental update for reservation `es` with ByteRange
integers `br` and a zero-filled Contents hex string. -/
def serializeSigUpdate (es : Nat) (br : ByteRange) : List Nat :=
  sigDictOpen ++ brNums br ++ contentsKey ++
  List.replicate (2 * es) 48 ++ sigDictClose

/-- The parsed view of the placeholder inserted into a file of `n` bytes
with reservation `es` and certification level `cl`: Contents hex string
at offsets `[n + contentsOffset, n + contentsOffset + 2 * es)`, ByteRange
[0, contentsStart, contentsEnd, fileLength - contentsEnd], and a DocMDP
permission exactly when `cl` is not NotCertified. -/
def placeholderFor (n es : Nat) (cl : CertificationLevels) : SigDict :=
  { byteRange :=
      { start1 := 0
        len1 := n + contentsOffset
        start2 := n + contentsOffset + 2 * es
        len2 := n + updateLength es - (n + contentsOffset + 2 * es) }
    contentsStart := n + contentsOffset
    contentsEnd := n + contentsOffset + 2 * es
    estimatedSize := es
    docMdp :=
      if cl = CertificationLevels.NotCertified then none
      else some cl.toNat }

/-- Modelled from the spec (section 4.2): append the serialized
incremental update with placeholder ByteRange integers, then rewrite the
ByteRange integers in place at their actual offset with the real values
[0, contentsStart, contentsEnd, fileLength - contentsEnd]; record the new
Signature dictionary, and set the AcroForm SigFlags to 3 when the
certification level is not NotCertified. -/
def addSignaturePlaceholderToPdf (doc : PdfDocument) (es : Nat)
    (cl : CertificationLevels) : PdfDocument :=
  { bytes := writeAt (doc.bytes ++ serializeSigUpdate es ⟨0, 0, 0, 0⟩)
      (doc.bytes.length + brOffset)
      (brNums (placeholderFor doc.bytes.length es cl).byteRange)
    sigDicts := doc.sigDicts ++ [placeholderFor doc.bytes.length es cl]
    acroFormSigFlags :=
      if cl = CertificationLevels.NotCertified then doc.acroFormSigFlags
      else some 3
    dss := doc.dss }

/-! ## Digest, embedding, LTV -/

/-- A placeholder is empty when its Contents hex string still holds only
zero hex characters (code 48). -/
def placeholderIsEmpty (bytes : List Nat) (p : SigDict) : Bool :=
  decide (readSpan bytes p.contentsStart (p.contentsEnd - p.contentsStart) =
    List.replicate (p.contentsEnd - p.contentsStart) 48)

/-- The empty signature placeholders of a document. -/
def emptyPlaceholders (doc : PdfDocument) : List SigDict :=
  doc.sigDicts.filter (fun p => placeholderIsEmpty doc.bytes p)

/-- The hash input of a digest over a ByteRange: the two named spans,
read from the file and concatenated in order. -/
def digestSpans (bytes : List Nat) (br : ByteRange) : List Nat :=
  readSpan bytes br.start1 br.len1 ++ readSpan bytes br.start2 br.len2

/-- Modelled from the spec (section 4.3): locate the single empty
Signature dictionary, read exactly the two spans its ByteRange names,
feed both through the selected hash algorithm in order, and return the
digest base64-encoded; fail when no empty placeholder exists, or when
more than one does. -/
def pdfDigestCore (doc : PdfDocument) (alg : HashAlgorithms) :
    Except PdfSignaturesError (List Nat) :=
  match emptyPlaceholders doc with
  | [] => .error .placeholderNotFound
  | [p] => .ok (base64Encode (hashBytes alg (digestSpans doc.bytes p.byteRange)))
  | _ :: _ :: _ => .error .ambiguousPlaceholder

/-- Modelled from the spec (section 4.4): locate the single empty
placeholder, check that the signature fits the reservation, hex-encode
the signature right-padded with zero bytes to the reserved width, and
overwrite exactly the Contents hex string in place.  The signature
arrives base64-decoded to raw bytes. -/
def signPdf (doc : PdfDocument) (signature : List Nat) :
    Except PdfSignaturesError PdfDocument :=
  match emptyPlaceholders doc with
  | [] => .error .placeholderNotFound
  | [p] =>
      if p.estimatedSize < signature.length then .error .signatureTooLarge
      else .ok { doc with
        bytes := writeAt doc.bytes p.contentsStart
          (hexEncode (signature ++
            List.replicate (p.estimatedSize - signature.length) 0)) }
  | _ :: _ :: _ => .error .ambiguousPlaceholder

/-- The signature dictionaries of a document that already hold a
signature (their Contents is no longer zero-filled). -/
def signedSignatures (doc : PdfDocument) : List SigDict :=
  doc.sigDicts.filter (fun p => ! placeholderIsEmpty doc.bytes p)

/-- Serialized bytes of the LTV incremental update: DSS object header,
the raw CRL and OCSP stream payloads, cross-reference and trailer. -/
def serializeLtvUpdate (crl ocsp : List (List Nat)) : List Nat :=
  strBytes "\n9998 0 obj\n<< /Type /DSS >>\n" ++
  (crl ++ ocsp).foldr (fun a b => a ++ b) [] ++
  strBytes "\nendobj\nxref\ntrailer\nstartxref\n%%EOF\n"

/-- Modelled from the spec (section 4.5): for a signed document, key a
new VRI entry by a digest of the Contents of the existing signature,
append the raw CRL and OCSP streams as a new incremental update after the
signed bytes, and extend — never overwrite — the DSS arrays and the VRI
sub-dictionary; fail when no existing signature is present. -/
def addLtvToPdf (doc : PdfDocument) (crl ocsp : List (List Nat)) :
    Except PdfSignaturesError PdfDocument :=
  match signedSignatures doc with
  | [] => .error .noSignatureForLtv
  | p :: _ =>
      let key := hashBytes .Sha256
        (readSpan doc.bytes p.contentsStart (p.contentsEnd - p.contentsStart))
      .ok { doc with
        bytes := doc.bytes ++ serializeLtvUpdate crl ocsp
        dss :=
          { crls := doc.dss.crls ++ crl
            ocsps := doc.dss.ocsps ++ ocsp
            vri := doc.dss.vri ++ [{ key := key, crls := crl, ocsps := ocsp }] } }

/-! ## Parameter records and defaults

From the source (index.d.ts): the parameter interfaces carry optional
fields; the documented defaults are estimatedsize = 30000, certlevel =
NotCertified, algorithm = SHA-512. -/

/-- From the source (interface AddSignaturePlaceholderToPdfParams): the
optional behavioural parameters of addSignaturePlaceholderToPdf. -/
structure AddSignaturePlaceholderToPdfParams where
  estimatedsize : Option Nat
  certlevel : Option CertificationLevels
  deriving DecidableEq, Repr

/-- From the source (interface PdfDigestParams): the optional hash
algorithm parameter of pdfDigest. -/
structure PdfDigestParams where
  algorithm : Option HashAlgorithms
  deriving DecidableEq, Repr

/-- Entry point applying the documented defaults (estimatedsize 30000,
certlevel NotCertified) before running the placeholder inserter. -/
def addSignaturePlaceholderEntry (doc : PdfDocument)
    (params : AddSignaturePlaceholderToPdfParams) : PdfDocument :=
  addSignaturePlaceholderToPdf doc (params.estimatedsize.getD 30000)
    (params.certlevel.getD CertificationLevels.NotCertified)

/-- Entry point applying the documented default (algorithm SHA-512)
before running the digest calculator. -/
def pdfDigestEntry (doc : PdfDocument) (params : PdfDigestParams) :
    Except PdfSignaturesError (List Nat) :=
  pdfDigestCore doc (params.algorithm.getD HashAlgorithms.Sha512)

/-! ## Sample documents

Small concrete inputs used to exercise the operations. -/

/-- Result extractor for `signPdf`: the signed document on success, the
input unchanged on failure. -/
def signStep (doc : PdfDocument) (sig : List Nat) : PdfDocument :=
  match signPdf doc sig with
  | .ok d => d
  | .error _ => doc

/-- Result extractor for `addLtvToPdf`: the augmented document on
success, the input unchanged on failure. -/
def ltvStep (doc : PdfDocument) (crl ocsp : List (List Nat)) : PdfDocument :=
  match addLtvToPdf doc crl ocsp with
  | .ok d => d
  | .error _ => doc

/-- A tiny unsigned input file. -/
def inputW : List Nat := strBytes "%PDF-1.4"

/-- The tiny input file as a freshly parsed document. -/
def baseW : PdfDocument := PdfDocument.ofBytes inputW

/-- The tiny document after inserting a placeholder with a 2-byte
reservation. -/
def docW : PdfDocument :=
  addSignaturePlaceholderToPdf baseW 2 CertificationLevels.NotCertified

/-- The parsed view of the placeholder inserted into the tiny document. -/
def pW : SigDict := placeholderFor 8 2 CertificationLevels.NotCertified

/-- A 2-byte sample signature that exactly fits the tiny reservation. -/
def sigW : List Nat := [202, 254]

/-- A one-signature document whose Contents is already non-empty, for
exercising the LTV augmenter. -/
def sigDictW : SigDict :=
  { byteRange := ⟨0, 0, 2, 0⟩, contentsStart := 0, contentsEnd := 2
    estimatedSize := 1, docMdp := none }

/-- A tiny already-signed document. -/
def docSignedW : PdfDocument :=
  { bytes := [49, 49], sigDicts := [sigDictW], acroFormSigFlags := none
    dss := { crls := [], ocsps := [], vri := [] } }

/-! ## Basic length and span lemmas -/

theorem length_padDec10 (n : Nat) : (padDec10 n).length = 10 := by
  simp [padDec10]

theorem length_brNums (br : ByteRange) : (brNums br).length = brNumsWidth := by
  simp [brNums, length_padDec10, brNumsWidth]

theorem length_hexEncode : ∀ bs : List Nat, (hexEncode bs).length = 2 * bs.length
  | [] => rfl
  | _ :: rest => by
      simp [hexEncode, length_hexEncode rest]
      omega

theorem hexEncode_append :
    ∀ a b : List Nat, hexEncode (a ++ b) = hexEncode a ++ hexEncode b
  | [], _ => rfl
  | x :: xs, b => by
      simp [hexEncode, hexEncode_append xs b]

theorem hexEncode_replicate_zero :
    ∀ k : Nat, hexEncode (List.replicate k 0) = List.replicate (2 * k) 48
  | 0 => rfl
  | k + 1 => by
      rw [List.replicate_succ, hexEncode, hexEncode_replicate_zero k,
        show 2 * (k + 1) = 2 * k + 1 + 1 by omega,
        List.replicate_succ, List.replicate_succ]
      norm_num [hexDigit]

theorem length_base64Encode :
    ∀ l : List Nat, (base64Encode l).length = 4 * ((l.length + 2) / 3)
  | [] => rfl
  | [_] => by simp [base64Encode]
  | [_, _] => by simp [base64Encode]
  | _ :: _ :: _ :: rest => by
      simp [base64Encode, length_base64Encode rest]
      omega

theorem length_hashBytes (alg : HashAlgorithms) (input : List Nat) :
    (hashBytes alg input).length = digestLength alg := by
  simp [hashBytes]

theorem length_writeAt (l r : List Nat) (off : Nat)
    (h : off + r.length ≤ l.length) :
    (writeAt l off r).length = l.length := by
  simp [writeAt]
  omega

theorem take_writeAt (l r : List Nat) (off n : Nat) (hn : n ≤ off)
    (hl : off ≤ l.length) :
    (writeAt l off r).take n = l.take n := by
  unfold writeAt
  rw [List.append_assoc, List.take_append_of_le_length (by simp; omega),
    List.take_take, Nat.min_eq_left hn]

theorem drop_writeAt (l r : List Nat) (off k : Nat)
    (hk : off + r.length ≤ k) (hl : off ≤ l.length) :
    (writeAt l off r).drop k = l.drop k := by
  have hA : (l.take off ++ r).length = off + r.length := by
    simp
    omega
  unfold writeAt
  rw [List.drop_append_eq_append_drop,
    List.drop_of_length_le (by rw [hA]; exact hk), hA, List.drop_drop,
    List.nil_append]
  congr 1
  omega

theorem readSpan_at (A B C : List Nat) :
    readSpan (A ++ B ++ C) A.length B.length = B := by
  unfold readSpan
  rw [List.append_assoc, List.drop_left, List.take_left]

theorem readSpan_at' (A B C L : List Nat) (s n : Nat)
    (hL : L = A ++ (B ++ C)) (hs : s = A.length) (hn : n = B.length) :
    readSpan L s n = B := by
  subst hL hs hn
  rw [← List.append_assoc]
  exact readSpan_at A B C

theorem readSpan_writeAt_self (l r : List Nat) (off : Nat)
    (h : off ≤ l.length) :
    readSpan (writeAt l off r) off r.length = r := by
  unfold writeAt
  exact readSpan_at' (l.take off) r (l.drop (off + r.length)) _ off r.length
    (by simp [List.append_assoc]) (by simp; omega) rfl

theorem readSpan_zero_start (bytes : List Nat) (n : Nat) :
    readSpan bytes 0 n = bytes.take n := by
  simp [readSpan]

theorem readSpan_suffix (bytes : List Nat) (s : Nat) :
    readSpan bytes s (bytes.length - s) = bytes.drop s :=
  List.take_of_length_le (by simp)

/-! ## Structure of the placeholder output -/

theorem writeAt_append_exact (A B C R : List Nat) (hlen : R.length = B.length) :
    writeAt (A ++ (B ++ C)) A.length R = A ++ R ++ C := by
  unfold writeAt
  rw [List.take_left' (rfl : A.length = A.length),
    show A ++ (B ++ C) = (A ++ B) ++ C from (List.append_assoc A B C).symm,
    List.drop_left' (show (A ++ B).length = A.length + R.length by
      simp [hlen])]

theorem addSig_bytes (doc : PdfDocument) (es : Nat) (cl : CertificationLevels) :
    (addSignaturePlaceholderToPdf doc es cl).bytes =
      (doc.bytes ++ sigDictOpen) ++
      brNums (placeholderFor doc.bytes.length es cl).byteRange ++
      (contentsKey ++ List.replicate (2 * es) 48 ++ sigDictClose) := by
  show writeAt (doc.bytes ++ serializeSigUpdate es ⟨0, 0, 0, 0⟩)
      (doc.bytes.length + brOffset)
      (brNums (placeholderFor doc.bytes.length es cl).byteRange) = _
  have hdraft : doc.bytes ++ serializeSigUpdate es ⟨0, 0, 0, 0⟩ =
      (doc.bytes ++ sigDictOpen) ++
      (brNums ⟨0, 0, 0, 0⟩ ++
        (contentsKey ++ List.replicate (2 * es) 48 ++ sigDictClose)) := by
    simp [serializeSigUpdate, List.append_assoc]
  have hoff : doc.bytes.length + brOffset =
      ((doc.bytes ++ sigDictOpen : List Nat)).length := by
    simp [brOffset]
  rw [hdraft, hoff, writeAt_append_exact _ _ _ _
    (by rw [length_brNums, length_brNums])]

theorem addSig_length (doc : PdfDocument) (es : Nat) (cl : CertificationLevels) :
    (addSignaturePlaceholderToPdf doc es cl).bytes.length =
      doc.bytes.length + updateLength es := by
  rw [addSig_bytes]
  simp [updateLength, contentsOffset, brOffset, brNumsWidth, length_brNums]
  omega

theorem addSig_contents_region (doc : PdfDocument) (es : Nat)
    (cl : CertificationLevels) :
    readSpan (addSignaturePlaceholderToPdf doc es cl).bytes
      (doc.bytes.length + contentsOffset) (2 * es) =
      List.replicate (2 * es) 48 := by
  rw [addSig_bytes]
  exact readSpan_at'
    ((doc.bytes ++ sigDictOpen) ++
      brNums (placeholderFor doc.bytes.length es cl).byteRange ++ contentsKey)
    (List.replicate (2 * es) 48) sigDictClose _ _ _
    (by simp [List.append_assoc])
    (by simp [contentsOffset, brOffset, brNumsWidth, length_brNums]; omega)
    (by simp)

theorem addSig_byteRange_region (doc : PdfDocument) (es : Nat)
    (cl : CertificationLevels) :
    readSpan (addSignaturePlaceholderToPdf doc es cl).bytes
      (doc.bytes.length + brOffset) brNumsWidth =
      brNums (placeholderFor doc.bytes.length es cl).byteRange := by
  rw [addSig_bytes]
  exact readSpan_at' (doc.bytes ++ sigDictOpen)
    (brNums (placeholderFor doc.bytes.length es cl).byteRange)
    (contentsKey ++ List.replicate (2 * es) 48 ++ sigDictClose) _ _ _
    (by simp [List.append_assoc]) (by simp [brOffset])
    (length_brNums _).symm

/-! ## Structure of the embedding operation -/

theorem signPdf_eq_ok (doc : PdfDocument) (p : SigDict) (sig : List Nat)
    (hone : emptyPlaceholders doc = [p]) (hfit : sig.length ≤ p.estimatedSize) :
    signPdf doc sig = Except.ok { doc with
      bytes := writeAt doc.bytes p.contentsStart
        (hexEncode (sig ++
          List.replicate (p.estimatedSize - sig.length) 0)) } := by
  unfold signPdf
  rw [hone]
  simp [Nat.not_lt.mpr hfit]

theorem length_sigFill (sig : List Nat) (es : Nat) (hfit : sig.length ≤ es) :
    (hexEncode (sig ++ List.replicate (es - sig.length) 0)).length = 2 * es := by
  rw [length_hexEncode]
  simp
  omega

theorem sigFill_eq (sig : List Nat) (es : Nat) :
    hexEncode (sig ++ List.replicate (es - sig.length) 0) =
      hexEncode sig ++ List.replicate (2 * (es - sig.length)) 48 := by
  rw [hexEncode_append, hexEncode_replicate_zero]

/-! ## The claims -/

/-- C1: for a document with exactly one empty signature placeholder whose
ByteRange is [0, contentsStart, contentsEnd, fileLength - contentsEnd],
the digest operation reads exactly the two spans the ByteRange names —
the bytes before the Contents hex string and the bytes after it, never
the Contents bytes themselves — feeds them in order through the selected
hash algorithm, and returns the digest base64-encoded; with SHA-256 the
digest is 32 bytes and its base64 encoding is 44 characters long. -/
theorem C1_digest_reads_exact_spans (doc : PdfDocument) (alg : HashAlgorithms)
    (p : SigDict) (hone : emptyPlaceholders doc = [p])
    (hbr : p.byteRange = ⟨0, p.contentsStart, p.contentsEnd,
      doc.bytes.length - p.contentsEnd⟩) :
    pdfDigestCore doc alg =
      Except.ok (base64Encode (hashBytes alg
        (doc.bytes.take p.contentsStart ++ doc.bytes.drop p.contentsEnd)))
    ∧ (hashBytes HashAlgorithms.Sha256
        (doc.bytes.take p.contentsStart ++ doc.bytes.drop p.contentsEnd)).length
        = 32
    ∧ (base64Encode (hashBytes HashAlgorithms.Sha256
        (doc.bytes.take p.contentsStart ++
          doc.bytes.drop p.contentsEnd))).length = 44 := by
  refine ⟨?_, ?_, ?_⟩
  · unfold pdfDigestCore
    rw [hone]
    show Except.ok (base64Encode (hashBytes alg
      (digestSpans doc.bytes p.byteRange))) = _
    rw [hbr]
    simp [digestSpans, readSpan_zero_start, readSpan_suffix]
  · rw [length_hashBytes]
    rfl
  · rw [length_base64Encode, length_hashBytes]
    rfl

set_option maxRecDepth 40000 in
/-- Witness for C1 at the tiny sample document. -/
theorem C1_digest_reads_exact_spans_witness :
    pdfDigestCore docW HashAlgorithms.Sha256 =
      Except.ok (base64Encode (hashBytes HashAlgorithms.Sha256
        (docW.bytes.take pW.contentsStart ++ docW.bytes.drop pW.contentsEnd)))
    ∧ (hashBytes HashAlgorithms.Sha256
        (docW.bytes.take pW.contentsStart ++ docW.bytes.drop pW.contentsEnd)).length
        = 32
    ∧ (base64Encode (hashBytes HashAlgorithms.Sha256
        (docW.bytes.take pW.contentsStart ++
          docW.bytes.drop pW.contentsEnd))).length = 44 :=
  C1_digest_reads_exact_spans docW HashAlgorithms.Sha256 pW (by decide)
    (by decide)

/-- C2: embedding a signature that fits the reservation succeeds, keeps
the file length unchanged, leaves every byte outside the reserved
Contents hex field identical, and overwrites that field with the
hex-encoded signature right-padded (with hex zero characters, the
encoding of zero bytes) to the original reserved width. -/
theorem C2_signPdf_frame (doc : PdfDocument) (p : SigDict) (sig : List Nat)
    (out : PdfDocument) (hone : emptyPlaceholders doc = [p])
    (hwidth : p.contentsEnd = p.contentsStart + 2 * p.estimatedSize)
    (hend : p.contentsEnd ≤ doc.bytes.length)
    (hfit : sig.length ≤ p.estimatedSize)
    (hsign : signPdf doc sig = Except.ok out) :
    out.bytes.length = doc.bytes.length
    ∧ out.bytes.take p.contentsStart = doc.bytes.take p.contentsStart
    ∧ out.bytes.drop p.contentsEnd = doc.bytes.drop p.contentsEnd
    ∧ readSpan out.bytes p.contentsStart (2 * p.estimatedSize) =
        hexEncode sig ++ List.replicate (2 * (p.estimatedSize - sig.length)) 48
        := by
  rw [signPdf_eq_ok doc p sig hone hfit] at hsign
  have hout : out.bytes = writeAt doc.bytes p.contentsStart
      (hexEncode (sig ++ List.replicate (p.estimatedSize - sig.length) 0)) := by
    rw [← Except.ok.inj hsign]
  have hw : (hexEncode (sig ++
      List.replicate (p.estimatedSize - sig.length) 0)).length =
      2 * p.estimatedSize := length_sigFill sig p.estimatedSize hfit
  refine ⟨?_, ?_, ?_, ?_⟩
  · rw [hout]
    exact length_writeAt _ _ _ (by rw [hw]; omega)
  · rw [hout]
    exact take_writeAt _ _ _ _ le_rfl (by omega)
  · rw [hout]
    exact drop_writeAt _ _ _ _ (by rw [hw]; omega) (by omega)
  · rw [hout, ← hw, readSpan_writeAt_self _ _ _ (by omega), sigFill_eq]

set_option maxRecDepth 40000 in
/-- Witness for C2: embedding the 2-byte sample signature into the tiny
placeholder document. -/
theorem C2_signPdf_frame_witness :
    (signStep docW sigW).bytes.length = docW.bytes.length
    ∧ (signStep docW sigW).bytes.take pW.contentsStart =
        docW.bytes.take pW.contentsStart
    ∧ (signStep docW sigW).bytes.drop pW.contentsEnd =
        docW.bytes.drop pW.contentsEnd
    ∧ readSpan (signStep docW sigW).bytes pW.contentsStart
        (2 * pW.estimatedSize) =
        hexEncode sigW ++
          List.replicate (2 * (pW.estimatedSize - sigW.length)) 48 :=
  C2_signPdf_frame docW pW sigW (signStep docW sigW) (by decide) (by decide)
    (by decide) (by decide) rfl

/-- C3: embedding a signature whose raw length exceeds the reservation
fails with the signature-too-large error, and no signed document is
produced (the input is a value and is never mutated). -/
theorem C3_signature_too_large (doc : PdfDocument) (p : SigDict)
    (sig : List Nat) (hone : emptyPlaceholders doc = [p])
    (hbig : p.estimatedSize < sig.length) :
    signPdf doc sig = Except.error PdfSignaturesError.signatureTooLarge
    ∧ ∀ out : PdfDocument, signPdf doc sig ≠ Except.ok out := by
  have h : signPdf doc sig =
      Except.error PdfSignaturesError.signatureTooLarge := by
    unfold signPdf
    rw [hone]
    simp [hbig]
  exact ⟨h, fun out hc => by rw [h] at hc; exact absurd hc (by simp)⟩

set_option maxRecDepth 40000 in
/-- Witness for C3: a 3-byte signature against the 2-byte reservation. -/
theorem C3_signature_too_large_witness :
    signPdf docW [1, 2, 3] =
      Except.error PdfSignaturesError.signatureTooLarge :=
  (C3_signature_too_large docW pW [1, 2, 3] (by decide) (by decide)).1

/-- C4: after inserting a placeholder, the recorded ByteRange equals
[0, contentsStart, contentsEnd, fileLength - contentsEnd], the two spans
total the output length minus the Contents field length exactly, the
Contents field in the output bytes is the zero-filled hex region of width
2 * estimatedSize, and the ByteRange integers actually written in the
output bytes are the rewritten ones. -/
theorem C4_byteRange_exact (doc : PdfDocument) (es : Nat)
    (cl : CertificationLevels) :
    (addSignaturePlaceholderToPdf doc es cl).sigDicts =
      doc.sigDicts ++ [placeholderFor doc.bytes.length es cl]
    ∧ (placeholderFor doc.bytes.length es cl).byteRange =
        ⟨0, (placeholderFor doc.bytes.length es cl).contentsStart,
          (placeholderFor doc.bytes.length es cl).contentsEnd,
          (addSignaturePlaceholderToPdf doc es cl).bytes.length -
            (placeholderFor doc.bytes.length es cl).contentsEnd⟩
    ∧ (placeholderFor doc.bytes.length es cl).byteRange.len1 +
        (placeholderFor doc.bytes.length es cl).byteRange.len2 =
        (addSignaturePlaceholderToPdf doc es cl).bytes.length -
          ((placeholderFor doc.bytes.length es cl).contentsEnd -
            (placeholderFor doc.bytes.length es cl).contentsStart)
    ∧ readSpan (addSignaturePlaceholderToPdf doc es cl).bytes
        (placeholderFor doc.bytes.length es cl).contentsStart (2 * es) =
        List.replicate (2 * es) 48
    ∧ readSpan (addSignaturePlaceholderToPdf doc es cl).bytes
        (doc.bytes.length + brOffset) brNumsWidth =
        brNums (placeholderFor doc.bytes.length es cl).byteRange := by
  refine ⟨rfl, ?_, ?_, ?_, addSig_byteRange_region doc es cl⟩
  · rw [addSig_length]
    simp [placeholderFor]
  · rw [addSig_length]
    simp [placeholderFor, updateLength]
    omega
  · have h := addSig_contents_region doc es cl
    simpa [placeholderFor] using h

/-- C5: both incremental-update operations — placeholder insertion and
LTV augmentation — leave the input bytes unchanged as a prefix of the
output. -/
theorem C5_append_only (doc : PdfDocument) (es : Nat)
    (cl : CertificationLevels) (crl ocsp : List (List Nat))
    (out : PdfDocument) :
    (addSignaturePlaceholderToPdf doc es cl).bytes.take doc.bytes.length =
      doc.bytes
    ∧ (addLtvToPdf doc crl ocsp = Except.ok out →
        out.bytes.take doc.bytes.length = doc.bytes) := by
  constructor
  · rw [addSig_bytes,
      show (doc.bytes ++ sigDictOpen) ++
          brNums (placeholderFor doc.bytes.length es cl).byteRange ++
          (contentsKey ++ List.replicate (2 * es) 48 ++ sigDictClose) =
        doc.bytes ++ (sigDictOpen ++
          (brNums (placeholderFor doc.bytes.length es cl).byteRange ++
            (contentsKey ++ List.replicate (2 * es) 48 ++ sigDictClose)))
        from by simp [List.append_assoc]]
    exact List.take_left' rfl
  · intro h
    unfold addLtvToPdf at h
    rcases hs : signedSignatures doc with _ | ⟨p, rest⟩
    · rw [hs] at h
      exact absurd h (by simp)
    · rw [hs] at h
      simp at h
      rw [← h]
      exact List.take_left' rfl

set_option maxRecDepth 40000 in
/-- Witness for C5 at the tiny documents. -/
theorem C5_append_only_witness :
    (addSignaturePlaceholderToPdf docSignedW 2
        CertificationLevels.NotCertified).bytes.take docSignedW.bytes.length =
      docSignedW.bytes
    ∧ (ltvStep docSignedW [[1]] [[2]]).bytes.take docSignedW.bytes.length =
        docSignedW.bytes := by
  have h := C5_append_only docSignedW 2 CertificationLevels.NotCertified
    [[1]] [[2]] (ltvStep docSignedW [[1]] [[2]])
  exact ⟨h.1, h.2 rfl⟩

/-- C6: when the certification level is not NotCertified, placeholder
insertion sets the AcroForm SigFlags to 3 and records a DocMDP permission
equal to the numeric certification level (1 = no changes, 2 =
form-filling, 3 = form-filling and annotations); with NotCertified no
DocMDP reference is recorded. -/
theorem C6_certification_flags (doc : PdfDocument) (es : Nat)
    (cl : CertificationLevels) :
    (cl ≠ CertificationLevels.NotCertified →
      (addSignaturePlaceholderToPdf doc es cl).acroFormSigFlags = some 3
      ∧ (placeholderFor doc.bytes.length es cl).docMdp = some cl.toNat)
    ∧ (cl = CertificationLevels.NotCertified →
      (placeholderFor doc.bytes.length es cl).docMdp = none)
    ∧ (addSignaturePlaceholderToPdf doc es cl).sigDicts =
        doc.sigDicts ++ [placeholderFor doc.bytes.length es cl]
    ∧ CertificationLevels.toNat CertificationLevels.CertifiedNoChangesAllowed
        = 1
    ∧ CertificationLevels.toNat CertificationLevels.CertifiedFormFilling = 2
    ∧ CertificationLevels.toNat
        CertificationLevels.CertifiedFormFillingAndAnnotations = 3 := by
  refine ⟨fun h => ⟨?_, ?_⟩, fun h => ?_, rfl, rfl, rfl, rfl⟩
  · simp [addSignaturePlaceholderToPdf, h]
  · simp [placeholderFor, h]
  · simp [placeholderFor, h]

/-- Witness for C6 at the tiny document, certified no-changes-allowed and
not certified. -/
theorem C6_certification_flags_witness :
    (addSignaturePlaceholderToPdf baseW 2
        CertificationLevels.CertifiedNoChangesAllowed).acroFormSigFlags =
      some 3
    ∧ (placeholderFor baseW.bytes.length 2
        CertificationLevels.CertifiedNoChangesAllowed).docMdp = some 1
    ∧ (placeholderFor baseW.bytes.length 2
        CertificationLevels.NotCertified).docMdp = none := by
  have h1 := C6_certification_flags baseW 2
    CertificationLevels.CertifiedNoChangesAllowed
  have h2 := C6_certification_flags baseW 2 CertificationLevels.NotCertified
  exact ⟨(h1.1 (by decide)).1, (h1.1 (by decide)).2, h2.2.1 rfl⟩

/-- C7: for a placeholder document, the digest computed over the
ByteRange spans before embedding equals the digest recomputed by
independently re-reading the same ByteRange spans after a fitting
signature has been embedded; and the former is exactly what the digest
operation returns. -/
theorem C7_digest_roundtrip (doc : PdfDocument) (p : SigDict)
    (sig : List Nat) (out : PdfDocument) (alg : HashAlgorithms)
    (hone : emptyPlaceholders doc = [p])
    (hbr : p.byteRange = ⟨0, p.contentsStart, p.contentsEnd,
      doc.bytes.length - p.contentsEnd⟩)
    (hwidth : p.contentsEnd = p.contentsStart + 2 * p.estimatedSize)
    (hend : p.contentsEnd ≤ doc.bytes.length)
    (hfit : sig.length ≤ p.estimatedSize)
    (hsign : signPdf doc sig = Except.ok out) :
    base64Encode (hashBytes alg (digestSpans out.bytes p.byteRange)) =
      base64Encode (hashBytes alg (digestSpans doc.bytes p.byteRange))
    ∧ pdfDigestCore doc alg =
        Except.ok (base64Encode (hashBytes alg
          (digestSpans doc.bytes p.byteRange))) := by
  rw [signPdf_eq_ok doc p sig hone hfit] at hsign
  have hout : out.bytes = writeAt doc.bytes p.contentsStart
      (hexEncode (sig ++ List.replicate (p.estimatedSize - sig.length) 0)) := by
    rw [← Except.ok.inj hsign]
  have hw : (hexEncode (sig ++
      List.replicate (p.estimatedSize - sig.length) 0)).length =
      2 * p.estimatedSize := length_sigFill sig p.estimatedSize hfit
  have htake : out.bytes.take p.contentsStart =
      doc.bytes.take p.contentsStart := by
    rw [hout]
    exact take_writeAt _ _ _ _ le_rfl (by omega)
  have hdrop : out.bytes.drop p.contentsEnd = doc.bytes.drop p.contentsEnd := by
    rw [hout]
    exact drop_writeAt _ _ _ _ (by rw [hw]; omega) (by omega)
  have hspans : digestSpans out.bytes p.byteRange =
      digestSpans doc.bytes p.byteRange := by
    rw [hbr]
    simp only [digestSpans, readSpan, List.drop_zero]
    rw [htake]
    rw [hdrop]
  refine ⟨by rw [hspans], ?_⟩
  unfold pdfDigestCore
  rw [hone]

set_option maxRecDepth 40000 in
/-- Witness for C7: the tiny placeholder document signed with the 2-byte
sample signature, under SHA-256. -/
theorem C7_digest_roundtrip_witness :
    base64Encode (hashBytes HashAlgorithms.Sha256
        (digestSpans (signStep docW sigW).bytes pW.byteRange)) =
      base64Encode (hashBytes HashAlgorithms.Sha256
        (digestSpans docW.bytes pW.byteRange))
    ∧ pdfDigestCore docW HashAlgorithms.Sha256 =
        Except.ok (base64Encode (hashBytes HashAlgorithms.Sha256
          (digestSpans docW.bytes pW.byteRange))) :=
  C7_digest_roundtrip docW pW sigW (signStep docW sigW) HashAlgorithms.Sha256
    (by decide) (by decide) (by decide) (by decide) (by decide) rfl

/-- C8: the digest operation fails with the placeholder-not-found error
when the document has no empty placeholder, fails with the ambiguity
error when it has more than one, and succeeds exactly when it has one. -/
theorem C8_digest_placeholder_cases (doc : PdfDocument)
    (alg : HashAlgorithms) :
    (emptyPlaceholders doc = [] →
      pdfDigestCore doc alg =
        Except.error PdfSignaturesError.placeholderNotFound)
    ∧ (∀ p q rest, emptyPlaceholders doc = p :: q :: rest →
        pdfDigestCore doc alg =
          Except.error PdfSignaturesError.ambiguousPlaceholder)
    ∧ ((∃ d, pdfDigestCore doc alg = Except.ok d) ↔
        (emptyPlaceholders doc).length = 1) := by
  refine ⟨fun h => by unfold pdfDigestCore; rw [h],
    fun p q rest h => by unfold pdfDigestCore; rw [h], ?_, ?_⟩
  · rintro ⟨d, hd⟩
    unfold pdfDigestCore at hd
    rcases hemp : emptyPlaceholders doc with _ | ⟨p, _ | ⟨q, rest⟩⟩
    · rw [hemp] at hd
      exact absurd hd (by simp)
    · simp [hemp]
    · rw [hemp] at hd
      exact absurd hd (by simp)
  · intro h
    rcases hemp : emptyPlaceholders doc with _ | ⟨p, _ | ⟨q, rest⟩⟩
    · rw [hemp] at h
      simp at h
    · exact ⟨_, by unfold pdfDigestCore; rw [hemp]⟩
    · rw [hemp] at h
      simp at h

/-- Witness for C8: the freshly parsed tiny document has no placeholder,
so digesting it fails with the placeholder-not-found error. -/
theorem C8_digest_placeholder_cases_witness :
    pdfDigestCore baseW HashAlgorithms.Sha512 =
      Except.error PdfSignaturesError.placeholderNotFound :=
  (C8_digest_placeholder_cases baseW HashAlgorithms.Sha512).1 rfl

/-- C9: omitting the optional parameters applies the documented defaults:
estimatedsize = 30000 and certlevel = NotCertified for placeholder
insertion, algorithm = SHA-512 for the digest. -/
theorem C9_defaults (doc : PdfDocument) :
    addSignaturePlaceholderEntry doc
        { estimatedsize := none, certlevel := none } =
      addSignaturePlaceholderToPdf doc 30000 CertificationLevels.NotCertified
    ∧ pdfDigestEntry doc { algorithm := none } =
        pdfDigestCore doc HashAlgorithms.Sha512 :=
  ⟨rfl, rfl⟩

/-- C10: applying the LTV augmenter twice is cumulative — the DSS arrays
of the result extend (never overwrite) the previous ones, every CRL and
OCSP entry of both calls is retrievable from the final DSS, and the VRI
sub-dictionary gains one entry per call carrying the streams of that
call. -/
theorem C10_addLtv_cumulative (doc : PdfDocument)
    (c1 o1 c2 o2 : List (List Nat)) (d1 d2 : PdfDocument)
    (h1 : addLtvToPdf doc c1 o1 = Except.ok d1)
    (h2 : addLtvToPdf d1 c2 o2 = Except.ok d2) :
    d2.dss.crls = doc.dss.crls ++ c1 ++ c2
    ∧ d2.dss.ocsps = doc.dss.ocsps ++ o1 ++ o2
    ∧ (∀ x, x ∈ c1 ∨ x ∈ c2 → x ∈ d2.dss.crls)
    ∧ (∀ x, x ∈ o1 ∨ x ∈ o2 → x ∈ d2.dss.ocsps)
    ∧ ∃ v1 v2, d2.dss.vri = doc.dss.vri ++ [v1, v2]
        ∧ v1.crls = c1 ∧ v1.ocsps = o1 ∧ v2.crls = c2 ∧ v2.ocsps = o2 := by
  unfold addLtvToPdf at h1 h2
  rcases hs1 : signedSignatures doc with _ | ⟨p1, r1⟩
  · rw [hs1] at h1
    exact absurd h1 (by simp)
  rcases hs2 : signedSignatures d1 with _ | ⟨p2, r2⟩
  · rw [hs2] at h2
    exact absurd h2 (by simp)
  rw [hs1] at h1
  rw [hs2] at h2
  simp only [Except.ok.injEq] at h1 h2
  subst h1
  subst h2
  refine ⟨by simp, by simp, ?_, ?_, ?_⟩
  · intro x hx
    rcases hx with hx | hx <;> simp [hx]
  · intro x hx
    rcases hx with hx | hx <;> simp [hx]
  · exact ⟨⟨hashBytes HashAlgorithms.Sha256
        (readSpan doc.bytes p1.contentsStart
          (p1.contentsEnd - p1.contentsStart)), c1, o1⟩,
      ⟨hashBytes HashAlgorithms.Sha256
        (readSpan (doc.bytes ++ serializeLtvUpdate c1 o1) p2.contentsStart
          (p2.contentsEnd - p2.contentsStart)), c2, o2⟩,
      by simp, rfl, rfl, rfl, rfl⟩

set_option maxRecDepth 40000 in
/-- Witness for C10: augmenting the tiny signed document twice with
one-element CRL and OCSP sets. -/
theorem C10_addLtv_cumulative_witness :
    (ltvStep (ltvStep docSignedW [[1]] [[2]]) [[3]] [[4]]).dss.crls =
      docSignedW.dss.crls ++ [[1]] ++ [[3]]
    ∧ (ltvStep (ltvStep docSignedW [[1]] [[2]]) [[3]] [[4]]).dss.ocsps =
        docSignedW.dss.ocsps ++ [[2]] ++ [[4]] := by
  have h := C10_addLtv_cumulative docSignedW [[1]] [[2]] [[3]] [[4]]
    (ltvStep docSignedW [[1]] [[2]])
    (ltvStep (ltvStep docSignedW [[1]] [[2]]) [[3]] [[4]]) rfl rfl
  exact ⟨h.1, h.2.1⟩

end PdfSignatures
